import Mathlib

/-!
Shallow embedding of the Phrase Filter content script
(extension/content.js): JS string primitives, the static per-domain
selector tables, phrase normalization and matching, per-card rule
application, the bid-button total enhancement, and the
mutation-observer callback re-scan decision.  JS strings are modelled
by `String` viewed as lists of characters, JS numbers by exact
rationals, and absent attributes / `undefined` returns by `Option`.
The module-scoped `currentHost` variable of the script is passed as an
explicit `host` argument.
-/

namespace AuctionExt

/-- Model of the JS method trim on strings: drop leading and trailing
whitespace characters. -/
def jsTrim (s : String) : String :=
  ⟨((s.data.dropWhile Char.isWhitespace).reverse.dropWhile Char.isWhitespace).reverse⟩

/-- Model of the JS method toLowerCase on strings (ASCII letters). -/
def jsToLower (s : String) : String :=
  ⟨s.data.map Char.toLower⟩

/-- Substring occurrence test on character lists, used to model the JS
method includes on strings. -/
def charsInfix (needle : List Char) : List Char → Bool
  | [] => needle.isEmpty
  | c :: rest => needle.isPrefixOf (c :: rest) || charsInfix needle rest

/-- Model of the JS expression haystack.includes(needle). -/
def jsIncludes (haystack needle : String) : Bool :=
  charsInfix needle.data haystack.data

/-- Model of the JS expression s.endsWith(suffixStr). -/
def jsEndsWith (s suffixStr : String) : Bool :=
  suffixStr.data.isSuffixOf s.data

/-- SiteRules of content.js: per-host include and exclude phrase
lists. -/
structure SiteRules where
  includePhrases : List String
  excludePhrases : List String
deriving DecidableEq

/-- Hard-coded per-host item selectors (ITEM_SELECTOR_BY_DOMAIN in
content.js), in object-literal insertion order as iterated by
Object.entries. -/
def ITEM_SELECTOR_BY_DOMAIN : List (String × String) :=
  [("bidfta.com",
    "div[role=\"button\"][aria-label=\"Click to navigate to item details\"]"),
   ("govdeals.com", "div.card.card-search")]

/-- Hard-coded per-host title selectors (TITLE_SELECTOR_BY_DOMAIN in
content.js). -/
def TITLE_SELECTOR_BY_DOMAIN : List (String × String) :=
  [("bidfta.com", "h4"),
   ("govdeals.com", ".card-title a")]

/-- hostMatchesDomain from content.js. -/
def hostMatchesDomain (host domain : String) : Bool :=
  if host == "" || domain == "" then false
  else host == domain || jsEndsWith host ("." ++ domain)

/-- Loop of getItemSelectorForHost over the item-selector table.  When
the matching selector trims to the empty string the source loop breaks
and control falls off the end of the function; when no entry matches
the loop also falls through.  In both cases the JS function returns
undefined (the source carries the comment NOTE: return not handled if
selector not found), modelled as `none`. -/
def itemSelectorScan (host : String) : List (String × String) → Option String
  | [] => none
  | (domain, selector) :: rest =>
    if hostMatchesDomain host domain then
      let trimmed := jsTrim selector
      if trimmed == "" then none else some trimmed
    else itemSelectorScan host rest

/-- getItemSelectorForHost from content.js; `none` models the
undefined value the JS function produces when no return is reached. -/
def getItemSelectorForHost (host : String) : Option String :=
  itemSelectorScan host ITEM_SELECTOR_BY_DOMAIN

/-- Loop of getTitleSelectorForHost over the title-selector table:
the trimmed selector of the first matching entry, the empty string
when no entry matches. -/
def titleSelectorScan (host : String) : List (String × String) → String
  | [] => ""
  | (domain, selector) :: rest =>
    if hostMatchesDomain host domain then jsTrim selector
    else titleSelectorScan host rest

/-- getTitleSelectorForHost from content.js. -/
def getTitleSelectorForHost (host : String) : String :=
  titleSelectorScan host TITLE_SELECTOR_BY_DOMAIN

/-- normalizeText from content.js: trim, then lowercase. -/
def normalizeText (s : String) : String :=
  jsToLower (jsTrim s)

/-- normalizePhrases from content.js: normalize every phrase, then
drop the empty results (the JS filter(Boolean)). -/
def normalizePhrases (arr : List String) : List String :=
  (arr.map normalizeText).filter (fun s => !(s == ""))

/-- hasAnyPhrase from content.js: false on an empty haystack or an
empty phrase list, otherwise true when some non-empty phrase occurs in
the haystack. -/
def hasAnyPhrase (haystackLower : String) (phrasesLower : List String) : Bool :=
  if haystackLower == "" then false
  else if phrasesLower.isEmpty then false
  else phrasesLower.any (fun p => !(p == "") && jsIncludes haystackLower p)

/-- Resolved title element of a card: its title attribute (`none` when
the attribute is absent) and its rendered text content. -/
structure TitleEl where
  titleAttr : Option String
  textContent : String
deriving DecidableEq

/-- DOM state of one listing card as read or written by the content
script: the querySelector view used for the title lookup, the inline
display style, the two marker attributes (`none` when absent), and the
remaining attributes and children, which the script never touches. -/
structure Card where
  query : String → Option TitleEl
  styleDisplay : String
  hiddenAttr : Option String
  highlightAttr : Option String
  otherAttrs : List (String × String)
  children : List String

/-- findTitleElementForHost from content.js: resolve the title
selector for the host; an empty selector or a failed query yields no
element. -/
def findTitleElementForHost (host : String) (card : Card) : Option TitleEl :=
  let titleSelector := getTitleSelectorForHost host
  if titleSelector == "" then none
  else card.query titleSelector

/-- JS expression a || b for a nullable string a: b when a is null or
empty, a otherwise. -/
def jsOrElse (a : Option String) (b : String) : String :=
  match a with
  | none => b
  | some s => if s == "" then b else s

/-- getTitleTextFromCard from content.js: prefer the title attribute
of the resolved title element, fall back to its text content, then
trim the chosen text. -/
def getTitleTextFromCard (host : String) (card : Card) : String :=
  match findTitleElementForHost host card with
  | none => ""
  | some titleEl => jsTrim (jsOrElse titleEl.titleAttr titleEl.textContent)

/-- setHidden from content.js: set or remove the exclusion marker
attribute; no other card state is modified (the exclusion rendering is
a CSS overlay keyed off the attribute, not a display change). -/
def setHidden (card : Card) (shouldHide : Bool) : Card :=
  if shouldHide then { card with hiddenAttr := some "1" }
  else { card with hiddenAttr := none }

/-- setHighlighted from content.js: set or remove the highlight marker
attribute. -/
def setHighlighted (card : Card) (shouldHighlight : Bool) : Card :=
  if shouldHighlight then { card with highlightAttr := some "1" }
  else { card with highlightAttr := none }

/-- applyRulesToCard from content.js: an empty normalized title leaves
the card alone with both markers cleared; otherwise exclude phrases
are tested first and win over include phrases. -/
def applyRulesToCard (host : String) (card : Card) (rules : SiteRules) : Card :=
  let titleLower := normalizeText (getTitleTextFromCard host card)
  if titleLower == "" then
    setHighlighted (setHidden card false) false
  else
    let includePhrasesLower := normalizePhrases rules.includePhrases
    let excludePhrasesLower := normalizePhrases rules.excludePhrases
    if hasAnyPhrase titleLower excludePhrasesLower then
      setHidden (setHighlighted card false) true
    else
      setHighlighted (setHidden card false) (hasAnyPhrase titleLower includePhrasesLower)

/-- Per-card classification of the design (section 4.4): the pure
decision that applyRulesToCard renders onto the markers. -/
inductive Classification where
  | Excluded
  | Included
  | Neutral
deriving DecidableEq

/-- Classification computed along the exact branch structure of
applyRulesToCard. -/
def classifyCard (host : String) (card : Card) (rules : SiteRules) : Classification :=
  let titleLower := normalizeText (getTitleTextFromCard host card)
  if titleLower == "" then .Neutral
  else if hasAnyPhrase titleLower (normalizePhrases rules.excludePhrases) then .Excluded
  else if hasAnyPhrase titleLower (normalizePhrases rules.includePhrases) then .Included
  else .Neutral

/-- calculateTrueBidTotal from content.js, with JS numbers modelled as
exact rationals: 17.5 percent buyer premium, freight of 0.25 dollars
for bids of at most 5 dollars and 1.00 dollars above, then 9.5 percent
sales tax. -/
def calculateTrueBidTotal (bidAmount : ℚ) : ℚ :=
  let afterPremium := bidAmount * 1.175
  let freightCharge : ℚ := if bidAmount ≤ 5 then 0.25 else 1.00
  let subtotal := afterPremium + freightCharge
  subtotal * 1.095

/-- Model of the JS call toFixed(2) on rationals: round to whole cents
and print two decimal digits. -/
def toFixed2 (x : ℚ) : String :=
  let cents : Int := (x * 100 + 1 / 2).floor
  let n : Nat := cents.natAbs
  let sign : String := if cents < 0 then "-" else ""
  let frac := n % 100
  sign ++ toString (n / 100) ++ "." ++ (if frac < 10 then "0" else "") ++ toString frac

/-- DOM state of one bid button: whether the enhanced marker attribute
is present, the parsed data-bid attribute (`none` when the attribute
is missing or parseFloat yields NaN), and the button text. -/
structure Button where
  enhanced : Bool
  bid : Option ℚ
  textContent : String
deriving DecidableEq

/-- enhanceBidButton from content.js: skip already-enhanced buttons
and buttons without a numeric data-bid; otherwise append the true
total to the button text and set the enhanced marker. -/
def enhanceBidButton (button : Button) : Button :=
  if button.enhanced then button
  else
    match button.bid with
    | none => button
    | some bidAmount =>
      let trueTotal := calculateTrueBidTotal bidAmount
      let originalText := jsTrim button.textContent
      { button with
          textContent := originalText ++ " ($" ++ toFixed2 trueTotal ++ " total)"
          enhanced := true }

/-- One DOM MutationRecord as delivered to the observer callback: the
lists of added and removed node identities (attribute-change records
carry empty node lists). -/
structure MutationRecord where
  addedNodes : List Nat
  removedNodes : List Nat
deriving DecidableEq

/-- Loop of the MutationObserver callback installed by startObserver:
scan the batch for a record with a nonempty addedNodes list, with
early exit on the first hit. -/
def batchHasAdded : List MutationRecord → Bool
  | [] => false
  | m :: rest => if m.addedNodes.length != 0 then true else batchHasAdded rest

/-- Number of applyRulesToPage re-scans the observer callback performs
for one delivered batch: one when some record added nodes, zero
otherwise. -/
def observerRescanCount (mutations : List MutationRecord) : Nat :=
  if batchHasAdded mutations then 1 else 0

/-- Sample BidFTA card whose h4 title matches both a sample include
phrase and a sample exclude phrase. -/
def cardBroken : Card where
  query := fun sel =>
    if sel == "h4" then
      some ⟨some "DeWalt Drill - Broken case", "DeWalt Drill - Broken case"⟩
    else none
  styleDisplay := ""
  hiddenAttr := none
  highlightAttr := none
  otherAttrs := [("class", "item-card")]
  children := ["img", "h4"]

/-- Sample card whose resolved title element has no title attribute
and empty text content. -/
def cardUntitled : Card where
  query := fun sel => if sel == "h4" then some ⟨none, ""⟩ else none
  styleDisplay := ""
  hiddenAttr := some "1"
  highlightAttr := some "1"
  otherAttrs := []
  children := []

/-- Sample card whose h4 carries a padded title attribute next to a
different text content. -/
def cardPadded : Card where
  query := fun sel =>
    if sel == "h4" then some ⟨some " Widget Lot ", "Widget Lo"⟩ else none
  styleDisplay := "flex"
  hiddenAttr := none
  highlightAttr := none
  otherAttrs := []
  children := []

/-! Helper lemmas -/

theorem charsInfix_eq_true_iff (needle : List Char) :
    ∀ l : List Char, charsInfix needle l = true ↔ needle <:+: l := by
  intro l
  induction l with
  | nil => simp [charsInfix]
  | cons c rest ih => simp [charsInfix, ih, List.infix_cons_iff]

theorem hasAnyPhrase_iff_exists (h : String) (ps : List String) :
    hasAnyPhrase h ps = true ↔
      h ≠ "" ∧ ps ≠ [] ∧ ∃ q ∈ ps, q ≠ "" ∧ q.data <:+: h.data := by
  unfold hasAnyPhrase
  by_cases hh : h = ""
  · subst hh; simp
  · cases ps with
    | nil => simp [hh]
    | cons p rest =>
      simp [hh, List.any_eq_true, jsIncludes, charsInfix_eq_true_iff]

theorem ne_empty_of_hasAnyPhrase {h : String} {ps : List String}
    (hyp : hasAnyPhrase h ps = true) : h ≠ "" :=
  ((hasAnyPhrase_iff_exists h ps).mp hyp).1

/-! Claim theorems -/

/-- C5: for every card, setting or clearing the exclusion state changes
only the exclusion marker attribute; the inline display style (in
particular it is never set to display none), the highlight marker, the
other attributes, the children and the query view of the card are all
left unchanged. -/
theorem setHidden_marker_only (card : Card) (b : Bool) :
    (setHidden card b).hiddenAttr = (if b then some "1" else none)
    ∧ (setHidden card b).styleDisplay = card.styleDisplay
    ∧ (setHidden card b).highlightAttr = card.highlightAttr
    ∧ (setHidden card b).otherAttrs = card.otherAttrs
    ∧ (setHidden card b).children = card.children
    ∧ (setHidden card b).query = card.query
    ∧ (card.styleDisplay ≠ "none" → (setHidden card b).styleDisplay ≠ "none") := by
  cases b <;> simp [setHidden]

/-- Witness for C5 at a concrete card with inline display flex. -/
theorem setHidden_marker_only_check :
    (setHidden cardPadded true).hiddenAttr = some "1"
    ∧ (setHidden cardPadded true).styleDisplay ≠ "none" := by
  have h := setHidden_marker_only cardPadded true
  exact ⟨h.1.trans rfl, h.2.2.2.2.2.2 (by decide)⟩

/-- C9: after applyRulesToCard the card never carries both markers at
once; the exclusion marker is present exactly on an Excluded outcome
and the highlight marker exactly on an Included outcome, so an
Excluded outcome clears the highlight marker and an Included or
Neutral outcome clears the exclusion marker. -/
theorem applyRules_markers_exclusive (host : String) (card : Card) (rules : SiteRules) :
    ((applyRulesToCard host card rules).hiddenAttr = none
      ∨ (applyRulesToCard host card rules).highlightAttr = none)
    ∧ (applyRulesToCard host card rules).hiddenAttr
        = (if classifyCard host card rules = Classification.Excluded then some "1" else none)
    ∧ (applyRulesToCard host card rules).highlightAttr
        = (if classifyCard host card rules = Classification.Included then some "1" else none) := by
  unfold applyRulesToCard classifyCard
  by_cases h1 : normalizeText (getTitleTextFromCard host card) = ""
  · simp [h1, setHidden, setHighlighted]
  · cases h2 : hasAnyPhrase (normalizeText (getTitleTextFromCard host card))
        (normalizePhrases rules.excludePhrases) with
    | true => simp [h1, h2, setHidden, setHighlighted]
    | false =>
      cases h3 : hasAnyPhrase (normalizeText (getTitleTextFromCard host card))
          (normalizePhrases rules.includePhrases) with
      | true => simp [h1, h2, h3, setHidden, setHighlighted]
      | false => simp [h1, h2, h3, setHidden, setHighlighted]

/-- C2: a card whose extracted title normalizes to the empty string is
classified Neutral by applyRulesToCard for every rules value, and both
the exclusion marker and the highlight marker end up cleared. -/
theorem applyRules_emptyTitle_neutral (host : String) (card : Card)
    (htitle : normalizeText (getTitleTextFromCard host card) = "") (rules : SiteRules) :
    (applyRulesToCard host card rules).hiddenAttr = none
    ∧ (applyRulesToCard host card rules).highlightAttr = none
    ∧ classifyCard host card rules = Classification.Neutral := by
  unfold applyRulesToCard classifyCard
  simp [htitle, setHidden, setHighlighted]

/-- Witness for C2: a card without usable title text, against rules
with a nonempty exclude list, ends with both markers cleared. -/
theorem applyRules_emptyTitle_neutral_check :
    (applyRulesToCard "bidfta.com" cardUntitled ⟨[], ["x"]⟩).hiddenAttr = none
    ∧ (applyRulesToCard "bidfta.com" cardUntitled ⟨[], ["x"]⟩).highlightAttr = none := by
  have h := applyRules_emptyTitle_neutral "bidfta.com" cardUntitled (by decide) ⟨[], ["x"]⟩
  exact ⟨h.1, h.2.1⟩

theorem jsTrim_nil : jsTrim "" = "" := by decide

/-- C1: when the normalized title of a card matches at least one
exclude phrase and at least one include phrase of the rules,
applyRulesToCard classifies the card Excluded: the exclusion marker is
set, the highlight marker is cleared, and the include-phrase test does
not influence the outcome (any include list yields the same card). -/
theorem applyRules_exclude_precedence (host : String) (card : Card) (rules : SiteRules)
    (hexc : hasAnyPhrase (normalizeText (getTitleTextFromCard host card))
      (normalizePhrases rules.excludePhrases) = true)
    (hinc : hasAnyPhrase (normalizeText (getTitleTextFromCard host card))
      (normalizePhrases rules.includePhrases) = true) :
    (applyRulesToCard host card rules).hiddenAttr = some "1"
    ∧ (applyRulesToCard host card rules).highlightAttr = none
    ∧ classifyCard host card rules = Classification.Excluded
    ∧ ∀ otherIncludes : List String,
        applyRulesToCard host card ⟨otherIncludes, rules.excludePhrases⟩
          = applyRulesToCard host card rules := by
  have hne := ne_empty_of_hasAnyPhrase hexc
  unfold applyRulesToCard classifyCard
  simp [hne, hexc, setHidden, setHighlighted]

/-- Witness for C1: a BidFTA card titled DeWalt Drill - Broken case
against include dewalt and exclude broken ends Excluded. -/
theorem applyRules_exclude_precedence_check :
    (applyRulesToCard "www.bidfta.com" cardBroken ⟨["dewalt"], ["broken"]⟩).hiddenAttr = some "1"
    ∧ (applyRulesToCard "www.bidfta.com" cardBroken ⟨["dewalt"], ["broken"]⟩).highlightAttr
        = none := by
  have h := applyRules_exclude_precedence "www.bidfta.com" cardBroken ⟨["dewalt"], ["broken"]⟩
    (by decide) (by decide)
  exact ⟨h.1, h.2.1⟩

/-- C4: when the title element of a card resolves, the extracted title
text is the (trimmed) title attribute whenever that attribute is
present and non-empty; only otherwise is it the (trimmed) rendered
text content, and it is the empty string when both are absent or
empty. -/
theorem getTitleText_prefers_titleAttr (host : String) (card : Card) (el : TitleEl)
    (hel : findTitleElementForHost host card = some el) :
    (∀ t : String, el.titleAttr = some t → t ≠ "" →
        getTitleTextFromCard host card = jsTrim t)
    ∧ (el.titleAttr = none ∨ el.titleAttr = some "" →
        getTitleTextFromCard host card = jsTrim el.textContent)
    ∧ (el.titleAttr = none ∨ el.titleAttr = some "" → el.textContent = "" →
        getTitleTextFromCard host card = "") := by
  have hred : getTitleTextFromCard host card
      = jsTrim (jsOrElse el.titleAttr el.textContent) := by
    simp [getTitleTextFromCard, hel]
  refine ⟨?_, ?_, ?_⟩
  · intro t ht hne
    rw [hred, ht]
    simp [jsOrElse, hne]
  · rintro (hattr | hattr) <;> rw [hred] <;> simp [jsOrElse, hattr]
  · rintro (hattr | hattr) htext <;> rw [hred] <;>
      simp [jsOrElse, hattr, htext, jsTrim_nil]

/-- Witness for C4: a card whose h4 has both a padded title attribute
and text content extracts the trimmed attribute. -/
theorem getTitleText_prefers_titleAttr_check :
    getTitleTextFromCard "bidfta.com" cardPadded = jsTrim " Widget Lot " := by
  have h := getTitleText_prefers_titleAttr "bidfta.com" cardPadded
    ⟨some " Widget Lot ", "Widget Lo"⟩ (by decide)
  exact h.1 " Widget Lot " rfl (by decide)

/-- C6 counterexample: the claimed equivalence fails on a phrase list
holding one empty string, because the source rejects falsy (empty)
phrases even though the empty string is a substring of any non-empty
haystack. -/
theorem hasAnyPhrase_claim_cex :
    ¬(hasAnyPhrase "x" [""] = true ↔
      ("x" : String) ≠ "" ∧ ([""] : List String) ≠ []
        ∧ ∃ q ∈ ([""] : List String), q.data <:+: ("x" : String).data) := by
  intro hiff
  have h1 : hasAnyPhrase "x" [""] = false := by decide
  have h2 := hiff.mpr ⟨by decide, by decide, "", by simp, by simp⟩
  rw [h1] at h2
  exact absurd h2 (by decide)

/-- C6 amended: hasAnyPhrase h p is true iff h is non-empty, p is
non-empty and at least one non-empty element of p is a substring of h;
in particular hasAnyPhrase h nil is false for every h and hasAnyPhrase
of the empty haystack is false for every p. -/
theorem hasAnyPhrase_spec (h : String) (ps : List String) :
    (hasAnyPhrase h ps = true ↔
      h ≠ "" ∧ ps ≠ [] ∧ ∃ q ∈ ps, q ≠ "" ∧ q.data <:+: h.data)
    ∧ hasAnyPhrase h [] = false
    ∧ hasAnyPhrase "" ps = false := by
  refine ⟨hasAnyPhrase_iff_exists h ps, ?_, by simp [hasAnyPhrase]⟩
  cases hh : (h == "") <;> simp [hasAnyPhrase, hh]

/-- Witness for C6 amended at a concrete haystack and phrase list. -/
theorem hasAnyPhrase_spec_check :
    hasAnyPhrase "dewalt drill" ["drill"] = true := by
  have h := hasAnyPhrase_spec "dewalt drill" ["drill"]
  refine h.1.mpr ⟨by decide, by decide, "drill", by simp, by decide, ?_⟩
  exact (charsInfix_eq_true_iff _ _).mp (by decide)

/-- C7: a non-empty domain entry matches a host exactly when the host
equals the domain or ends with a dot followed by the domain; hence
shop.bidfta.com resolves the bidfta.com selectors (item selector and
title selector h4) while notbidfta.com matches no entry. -/
theorem hostMatchesDomain_spec (host domain : String) (hd : domain ≠ "") :
    (hostMatchesDomain host domain = true ↔
      host = domain ∨ ("." ++ domain).data <:+ host.data)
    ∧ getItemSelectorForHost "shop.bidfta.com"
        = some "div[role=\"button\"][aria-label=\"Click to navigate to item details\"]"
    ∧ getTitleSelectorForHost "shop.bidfta.com" = "h4"
    ∧ hostMatchesDomain "notbidfta.com" "bidfta.com" = false
    ∧ hostMatchesDomain "notbidfta.com" "govdeals.com" = false
    ∧ getTitleSelectorForHost "notbidfta.com" = "" := by
  refine ⟨?_, by decide, by decide, by decide, by decide, by decide⟩
  unfold hostMatchesDomain jsEndsWith
  by_cases hh : host = ""
  · subst hh
    simp only [show (("." ++ domain).data) = '.' :: domain.data from rfl,
      show ("" : String).data = [] from rfl]
    simp [hd, eq_comm]
  · simp [hh, hd]

/-- Witness for C7 at the hosts of the claim. -/
theorem hostMatchesDomain_spec_check :
    hostMatchesDomain "shop.bidfta.com" "bidfta.com" = true
    ∧ getTitleSelectorForHost "shop.bidfta.com" = "h4" := by
  have h := hostMatchesDomain_spec "shop.bidfta.com" "bidfta.com" (by decide)
  have hsuf : (("." ++ "bidfta.com").data) <:+ ("shop.bidfta.com" : String).data :=
    List.isSuffixOf_iff_suffix.mp (by decide)
  exact ⟨h.1.mpr (Or.inr hsuf), h.2.2.1⟩

theorem batchHasAdded_iff (batch : List MutationRecord) :
    batchHasAdded batch = true ↔ ∃ m ∈ batch, m.addedNodes ≠ [] := by
  induction batch with
  | nil => simp [batchHasAdded]
  | cons m rest ih =>
    by_cases hm : m.addedNodes = []
    · simp [batchHasAdded, hm, ih]
    · simp [batchHasAdded, hm, List.length_eq_zero]

/-- C8: one delivered mutation batch triggers exactly one re-scan when
at least one of its records added a node, and triggers none when every
record added no node (removal-only or attribute-only batches). -/
theorem observer_batch_rescans (batch : List MutationRecord) :
    ((∃ m ∈ batch, m.addedNodes ≠ []) → observerRescanCount batch = 1)
    ∧ ((∀ m ∈ batch, m.addedNodes = []) → observerRescanCount batch = 0) := by
  constructor
  · intro hex
    unfold observerRescanCount
    rw [(batchHasAdded_iff batch).mpr hex]
    simp
  · intro hall
    unfold observerRescanCount
    have hfalse : batchHasAdded batch = false := by
      cases hb : batchHasAdded batch
      · rfl
      · obtain ⟨m, hmem, hne⟩ := (batchHasAdded_iff batch).mp hb
        exact absurd (hall m hmem) hne
    rw [hfalse]
    simp

/-- Witness for C8: a batch adding three nodes triggers one re-scan, a
removal-only batch triggers none. -/
theorem observer_batch_rescans_check :
    observerRescanCount [⟨[1, 2, 3], []⟩] = 1
    ∧ observerRescanCount [⟨[], [7]⟩] = 0 := by
  refine ⟨(observer_batch_rescans [⟨[1, 2, 3], []⟩]).1 ⟨⟨[1, 2, 3], []⟩, by simp, by simp⟩,
    (observer_batch_rescans [⟨[], [7]⟩]).2 ?_⟩
  intro m hm
  simp only [List.mem_singleton] at hm
  subst hm
  rfl

/-- C3 evaluation: for a host matching no entry of the static domain
table the item-selector lookup reaches no return statement and
produces undefined (modelled as none) instead of the built-in default
card selector the design mandates, while the title-selector lookup
does return the empty string. -/
theorem itemSelector_noMatch_undefined :
    getItemSelectorForHost "example.com" = none
    ∧ getTitleSelectorForHost "example.com" = "" := by
  decide

/-- C10: calculateTrueBidTotal is the 17.5 percent premium plus a
freight charge of 0.25 for bids of at most 5 dollars and 1.00 above,
all taxed at 9.5 percent; enhanceBidButton appends this total to the
button text exactly once per button (a second application changes
nothing, and enhanced buttons are skipped). -/
theorem trueBidTotal_enhance (b : ℚ) (btn : Button) :
    calculateTrueBidTotal b = (b * 1.175 + (if b ≤ 5 then 0.25 else 1.00)) * 1.095
    ∧ (btn.enhanced = false → ∀ amount : ℚ, btn.bid = some amount →
        (enhanceBidButton btn).textContent
          = jsTrim btn.textContent ++ " ($" ++ toFixed2 (calculateTrueBidTotal amount)
              ++ " total)"
        ∧ (enhanceBidButton btn).enhanced = true)
    ∧ enhanceBidButton (enhanceBidButton btn) = enhanceBidButton btn := by
  refine ⟨rfl, ?_, ?_⟩
  · intro henh amount hbid
    simp [enhanceBidButton, henh, hbid]
  · by_cases henh : btn.enhanced = true
    · simp [enhanceBidButton, henh]
    · cases hbid : btn.bid with
      | none => simp [enhanceBidButton, henh, hbid]
      | some amount => simp [enhanceBidButton, henh, hbid]

/-- Witness for C10 at a five dollar bid button. -/
theorem trueBidTotal_enhance_check :
    calculateTrueBidTotal 5 = (5 * 1.175 + 0.25) * 1.095
    ∧ (enhanceBidButton ⟨false, some 5, "Bid $5"⟩).textContent
        = jsTrim "Bid $5" ++ " ($" ++ toFixed2 (calculateTrueBidTotal 5) ++ " total)"
    ∧ (enhanceBidButton ⟨false, some 5, "Bid $5"⟩).enhanced = true := by
  have h := trueBidTotal_enhance 5 ⟨false, some 5, "Bid $5"⟩
  have h2 := h.2.1 rfl 5 rfl
  refine ⟨?_, h2.1, h2.2⟩
  have h1 := h.1
  rw [if_pos (le_refl (5 : ℚ))] at h1
  exact h1

end AuctionExt
